import Mathlib

/-!
Shallow embedding of `src/App.tsx` of the markdown-preview-plugin repository
(a sidebar plugin rendering a selected spreadsheet cell as Markdown).

JavaScript strings are modelled as lists of characters (`JSStr`); the
JavaScript library functions the plugin calls on strings (`trim`,
`startsWith`, `toLowerCase`, the `/language-(\w+)/` regular expression,
`replace(/\n$/, '')`) are given explicit executable definitions mirroring
ECMAScript semantics. Host-SDK calls, the DOM and the clipboard are modelled
as explicit environments passed to the embedded functions.
-/

/-- JavaScript strings, modelled as lists of Unicode characters. -/
abbrev JSStr := List Char

/-- The characters removed by JavaScript `String.prototype.trim`:
the ECMAScript WhiteSpace and LineTerminator code points. -/
def jsIsWhitespace (c : Char) : Bool :=
  c.toNat = 0x09 || c.toNat = 0x0A || c.toNat = 0x0B || c.toNat = 0x0C ||
  c.toNat = 0x0D || c.toNat = 0x20 || c.toNat = 0xA0 || c.toNat = 0x1680 ||
  (0x2000 ≤ c.toNat && c.toNat ≤ 0x200A) ||
  c.toNat = 0x2028 || c.toNat = 0x2029 || c.toNat = 0x202F ||
  c.toNat = 0x205F || c.toNat = 0x3000 || c.toNat = 0xFEFF

/-- JavaScript `s.trim()`: strip leading and trailing whitespace. -/
def jsTrim (s : JSStr) : JSStr :=
  ((s.dropWhile jsIsWhitespace).reverse.dropWhile jsIsWhitespace).reverse

/-- JavaScript `s.startsWith(p)`. -/
def jsStartsWith (s p : JSStr) : Bool :=
  match p, s with
  | [], _ => true
  | _ :: _, [] => false
  | c :: p', d :: s' => d == c && jsStartsWith s' p'

/-- JavaScript `s.toLowerCase()`, restricted to the ASCII range (the only
range exercised by the plugin's keyword comparisons). -/
def jsToLower (s : JSStr) : JSStr := s.map Char.toLower

/-- The fixed Mermaid keyword list `MERMAID_KEYWORDS` of `src/App.tsx`
(used for content detection), verbatim, including the entries that end in a
space or newline delimiter. -/
def MERMAID_KEYWORDS : List JSStr :=
  ["graph ".data, "graph\n".data,
   "flowchart ".data, "flowchart\n".data,
   "sequenceDiagram".data,
   "classDiagram".data,
   "stateDiagram".data,
   "erDiagram".data,
   "journey".data,
   "gantt".data,
   "pie ".data, "pie\n".data,
   "gitGraph".data,
   "mindmap".data,
   "timeline".data,
   "quadrantChart".data,
   "sankey".data,
   "xychart".data,
   "block-beta".data,
   "C4Context".data,
   "C4Container".data,
   "C4Component".data,
   "C4Dynamic".data,
   "C4Deployment".data,
   "architecture".data,
   "zenuml".data,
   "requirement".data,
   "packet".data,
   "kanban".data]

/-- The content classifier `isMermaidContent` of `src/App.tsx`: trim the
content, then test whether it starts with any keyword, case-sensitively or
(as fallback) case-insensitively. -/
def isMermaidContent (content : JSStr) : Bool :=
  let trimmed := jsTrim content
  MERMAID_KEYWORDS.any fun keyword =>
    jsStartsWith trimmed keyword ||
    jsStartsWith (jsToLower trimmed) (jsToLower keyword)

/-- Any extension of a string is recognised by `jsStartsWith` as starting
with that string. -/
theorem jsStartsWith_append_self (p t : JSStr) : jsStartsWith (p ++ t) p = true := by
  induction p with
  | nil => simp [jsStartsWith]
  | cons c p' ih => simp [jsStartsWith, ih]

/-- `dropWhile` distributes over an append whose first part is not consumed
entirely. -/
theorem dropWhile_append_of_left_ne_nil {α : Type} {p : α → Bool}
    {l₁ : List α} (l₂ : List α) (h : l₁.dropWhile p ≠ []) :
    (l₁ ++ l₂).dropWhile p = l₁.dropWhile p ++ l₂ := by
  induction l₁ with
  | nil => simp at h
  | cons a l ih =>
    cases hpa : p a with
    | true =>
      rw [List.dropWhile_cons_of_pos hpa] at h
      simp only [List.cons_append, List.dropWhile_cons_of_pos hpa]
      exact ih h
    | false =>
      have hna : ¬ (p a = true) := by simp [hpa]
      simp [List.dropWhile_cons_of_neg hna]

/-- If the first character of `k` is not whitespace, and either `s` contains
some non-whitespace character or `k` itself does not end in whitespace, then
`k` survives as a prefix of the trimmed concatenation `k ++ s`. -/
theorem jsTrim_append_keeps_head (k s : JSStr) (hne : k ≠ [])
    (hhead : jsIsWhitespace (k.headD ' ') = false)
    (hcond : s.any (fun c => !jsIsWhitespace c) = true ∨
      jsIsWhitespace (k.getLastD ' ') = false) :
    jsStartsWith (jsTrim (k ++ s)) k = true := by
  obtain ⟨c, k', rfl⟩ : ∃ c k', k = c :: k' := by
    cases k with
    | nil => exact absurd rfl hne
    | cons c k' => exact ⟨c, k', rfl⟩
  have hc : jsIsWhitespace c = false := by simpa using hhead
  have hlead : List.dropWhile jsIsWhitespace ((c :: k') ++ s) = (c :: k') ++ s := by
    simp [List.dropWhile_cons, hc]
  unfold jsTrim
  rw [hlead, List.reverse_append]
  by_cases hs : s.any (fun c => !jsIsWhitespace c) = true
  · obtain ⟨x, hxs, hx⟩ := List.any_eq_true.mp hs
    have hx' : jsIsWhitespace x = false := by simpa using hx
    have hnn : List.dropWhile jsIsWhitespace s.reverse ≠ [] := by
      intro hnil
      have hall := List.dropWhile_eq_nil_iff.mp hnil
      have := hall x (List.mem_reverse.mpr hxs)
      simp [hx'] at this
    rw [dropWhile_append_of_left_ne_nil _ hnn, List.reverse_append,
      List.reverse_reverse]
    exact jsStartsWith_append_self (c :: k') _
  · have hlast : jsIsWhitespace ((c :: k').getLastD ' ') = false := by
      rcases hcond with h | h
      · exact absurd h hs
      · exact h
    have hallws : ∀ a ∈ s.reverse, jsIsWhitespace a = true := by
      intro a ha
      by_contra hcontra
      exact hs (List.any_eq_true.mpr ⟨a, List.mem_reverse.mp ha, by
        simp [Bool.eq_false_iff.mpr hcontra]⟩)
    rw [List.dropWhile_append_of_pos hallws]
    cases hkr : (c :: k').reverse with
    | nil => simp at hkr
    | cons a t =>
      have hhr : (c :: k').reverse.head? = some a := by rw [hkr]; rfl
      have hga : (c :: k').getLast? = some a := by
        rw [← List.head?_reverse, hhr]
      have hwa : jsIsWhitespace a = false := by
        have : (c :: k').getLastD ' ' = a := by
          rw [List.getLastD_eq_getLast?, hga]; rfl
        rwa [this] at hlast
      have hna : ¬ (jsIsWhitespace a = true) := by simp [hwa]
      have hdrop : List.dropWhile jsIsWhitespace (a :: t) = a :: t :=
        List.dropWhile_cons_of_neg hna
      rw [hdrop, ← hkr, List.reverse_reverse]
      have h2 := jsStartsWith_append_self (c :: k') []
      rwa [List.append_nil] at h2

/-- Claim C1 (amended): for every keyword `k` in the fixed list and every
suffix `s`, if `s` contains a non-whitespace character, or `k` does not end
in a whitespace delimiter, then the classifier accepts `k ++ s`; and the
classifier rejects a string (such as "hello world") not starting with any
keyword after trimming. The amendment is forced because six keywords carry a
trailing space or newline, which trimming removes when the suffix is
whitespace-only. -/
theorem claim_C1_keyword_suffix_amended :
    (∀ k ∈ MERMAID_KEYWORDS, ∀ s : JSStr,
      (s.any (fun c => !jsIsWhitespace c) = true ∨
        jsIsWhitespace (k.getLastD ' ') = false) →
      isMermaidContent (k ++ s) = true) ∧
    isMermaidContent "hello world".data = false := by
  constructor
  · intro k hk s hcond
    have hall : ∀ k ∈ MERMAID_KEYWORDS,
        k ≠ [] ∧ jsIsWhitespace (k.headD ' ') = false := by decide
    obtain ⟨hne, hhead⟩ := hall k hk
    have hsw := jsTrim_append_keeps_head k s hne hhead hcond
    have hpred : (jsStartsWith (jsTrim (k ++ s)) k ||
        jsStartsWith (jsToLower (jsTrim (k ++ s))) (jsToLower k)) = true := by
      rw [hsw, Bool.true_or]
    simp only [isMermaidContent, List.any_eq_true]
    exact ⟨k, hk, hpred⟩
  · decide

/-- Claim C1 counterexample: the keyword "graph " (with its trailing space)
followed by the empty suffix is rejected by the classifier, because trimming
strips the space that is part of the keyword. -/
theorem claim_C1_counterexample :
    "graph ".data ∈ MERMAID_KEYWORDS ∧
    isMermaidContent ("graph ".data ++ ([] : JSStr)) = false := by
  exact ⟨by decide, by decide⟩

/-- Claim C1 witness: the amended theorem applied at keyword "graph " with
suffix "TD". -/
theorem claim_C1_witness :
    isMermaidContent ("graph ".data ++ "TD".data) = true :=
  claim_C1_keyword_suffix_amended.1 "graph ".data (by decide) "TD".data
    (Or.inl (by decide))

/-- Claim C2: the classifier returns false on the empty string, true on
content whose leading whitespace precedes a keyword, and false on content
that merely contains a keyword away from the trimmed start. -/
theorem claim_C2_classifier_edge_cases :
    isMermaidContent "".data = false ∧
    isMermaidContent "   \n graph TD".data = true ∧
    isMermaidContent "see the\ngantt chart below".data = false := by
  exact ⟨by decide, by decide, by decide⟩

/-- The presentation path chosen by the `App` component for the current cell
content (content-wrapper branch of `src/App.tsx`): whole-content diagram
rendering, generic Markdown rendering, or the empty-content placeholder. -/
inductive RenderPath where
  | mermaidWhole (code : JSStr)
  | markdownPath (content : JSStr)
  | emptyCell
deriving DecidableEq

/-- The render dispatch of the `App` component: a truthy (non-empty) content
classified by `isMermaidContent` is delegated whole, trimmed, to the diagram
renderer; other non-empty content goes to the generic Markdown renderer;
empty content shows the empty-cell placeholder. -/
def renderDispatch (content : JSStr) : RenderPath :=
  if content = [] then RenderPath.emptyCell
  else if isMermaidContent content then RenderPath.mermaidWhole (jsTrim content)
  else RenderPath.markdownPath content

/-- Claim C3: for non-empty content the dispatcher sends classifier-accepted
content directly (trimmed) to the diagram renderer and never to the generic
Markdown path, and classifier-rejected content to the generic Markdown path
and never to the whole-content diagram path. -/
theorem claim_C3_render_dispatch (content : JSStr) (h : content ≠ []) :
    (isMermaidContent content = true →
      renderDispatch content = RenderPath.mermaidWhole (jsTrim content)) ∧
    (isMermaidContent content = false →
      renderDispatch content = RenderPath.markdownPath content) := by
  constructor <;> intro hc <;> simp [renderDispatch, h, hc]

/-- Claim C3 witness: the dispatcher at the concrete diagram document
"flowchart TD A-->B" takes the whole-content diagram path. -/
theorem claim_C3_witness :
    renderDispatch "flowchart TD\nA-->B".data =
      RenderPath.mermaidWhole (jsTrim "flowchart TD\nA-->B".data) :=
  (claim_C3_render_dispatch "flowchart TD\nA-->B".data (by decide)).1 (by decide)

/-- Word characters matched by `\w` in a JavaScript regular expression
without the unicode flag: ASCII letters, digits and underscore. -/
def jsIsWordChar (c : Char) : Bool := c.isAlpha || c.isDigit || c == '_'

/-- The capture of the first match of the JavaScript regular expression
`/language-(\w+)/` on a class-name string: at each successive start
position, match the literal "language-" followed by at least one word
character; the capture group is the maximal word-character run after the
literal. Returns `[]` when there is no match, mirroring the
`match ? match[1] : ''` idiom of `src/App.tsx`. -/
def extractLanguage : JSStr → JSStr
  | [] => []
  | c :: rest =>
    if jsStartsWith (c :: rest) "language-".data then
      let w := ((c :: rest).drop 9).takeWhile jsIsWordChar
      if w = [] then extractLanguage rest else w
    else extractLanguage rest

/-- JavaScript `s.replace(/\n$/, '')`: remove one trailing newline. -/
def stripTrailingNewline (s : JSStr) : JSStr :=
  match s.reverse with
  | '\n' :: r => r.reverse
  | _ => s

/-- Result of rendering one `code` element inside the generic Markdown
path. -/
inductive CodeRender where
  | mermaidBlock (code : JSStr)
  | plainCode (className : Option JSStr) (children : JSStr)
deriving DecidableEq

/-- The `CodeBlock` component of `src/App.tsx`: extract the language from
the class name via `/language-(\w+)/`; language "mermaid" delegates the
newline-stripped code to the diagram renderer, anything else renders the
default highlighted code element with the original class name. -/
def CodeBlock (className : Option JSStr) (children : JSStr) : CodeRender :=
  let language := extractLanguage (className.getD [])
  let code := stripTrailingNewline children
  if language = "mermaid".data then CodeRender.mermaidBlock code
  else CodeRender.plainCode className children

/-- A child node of a `pre` element as inspected by `PreBlock`: either a
`code` element carrying a class name and string children, or any other
node. -/
inductive PreChild where
  | codeElem (className : Option JSStr) (children : JSStr)
  | otherNode (content : JSStr)
deriving DecidableEq

/-- The `child.type === 'code'` test used by `PreBlock` to find its code
child. -/
def isCodeElem : PreChild → Bool
  | PreChild.codeElem _ _ => true
  | PreChild.otherNode _ => false

/-- Result of rendering one `pre` element inside the generic Markdown
path. -/
inductive PreRender where
  | mermaidBlock (code : JSStr)
  | codeWithCopy (copyCode : JSStr) (children : List PreChild)
  | plainPre (children : List PreChild)
deriving DecidableEq

/-- The `PreBlock` component of `src/App.tsx`: find the first `code` child;
if its language is "mermaid", delegate the newline-stripped code to the
diagram renderer; otherwise wrap the original children in a code-block
wrapper carrying a copy-to-clipboard button for the stripped code; with no
code child, render a plain `pre` element. -/
def PreBlock (children : List PreChild) : PreRender :=
  match children.find? isCodeElem with
  | some (PreChild.codeElem className cchildren) =>
    let language := extractLanguage (className.getD [])
    let code := stripTrailingNewline cchildren
    if language = "mermaid".data then PreRender.mermaidBlock code
    else PreRender.codeWithCopy code children
  | _ => PreRender.plainPre children

/-- Claim C4: a fenced or preformatted block whose extracted language tag is
"mermaid" is delegated to the diagram renderer; any other language renders
as a highlighted code block wrapped with a copy button; a `pre` element
without a code child (surrounding non-code content) passes through
unaffected. -/
theorem claim_C4_fenced_block_dispatch :
    (∀ (className : Option JSStr) (children : JSStr),
      (extractLanguage (className.getD []) = "mermaid".data →
        CodeBlock className children =
          CodeRender.mermaidBlock (stripTrailingNewline children)) ∧
      (extractLanguage (className.getD []) ≠ "mermaid".data →
        CodeBlock className children = CodeRender.plainCode className children)) ∧
    (∀ (children : List PreChild) (className : Option JSStr) (cchildren : JSStr),
      children.find? isCodeElem = some (PreChild.codeElem className cchildren) →
      (extractLanguage (className.getD []) = "mermaid".data →
        PreBlock children =
          PreRender.mermaidBlock (stripTrailingNewline cchildren)) ∧
      (extractLanguage (className.getD []) ≠ "mermaid".data →
        PreBlock children =
          PreRender.codeWithCopy (stripTrailingNewline cchildren) children)) ∧
    (∀ children : List PreChild, children.find? isCodeElem = none →
      PreBlock children = PreRender.plainPre children) := by
  refine ⟨fun className children => ⟨fun h => ?_, fun h => ?_⟩,
    fun children className cchildren hfind => ⟨fun h => ?_, fun h => ?_⟩,
    fun children hfind => ?_⟩
  · simp [CodeBlock, h]
  · simp [CodeBlock, h]
  · simp [PreBlock, hfind, h]
  · simp [PreBlock, hfind, h]
  · simp [PreBlock, hfind]

/-- Claim C4 witness: a code element tagged `language-mermaid` delegates to
the diagram renderer, and a `pre` element whose code child is tagged
`language-python` renders as a copy-wrapped code block. -/
theorem claim_C4_witness :
    CodeBlock (some "language-mermaid".data) "graph TD\n".data =
      CodeRender.mermaidBlock "graph TD".data ∧
    PreBlock [PreChild.codeElem (some "language-python".data) "x = 1\n".data] =
      PreRender.codeWithCopy "x = 1".data
        [PreChild.codeElem (some "language-python".data) "x = 1\n".data] := by
  constructor
  · exact ((claim_C4_fenced_block_dispatch.1
      (some "language-mermaid".data) "graph TD\n".data).1 (by decide)).trans
      (by decide)
  · exact ((claim_C4_fenced_block_dispatch.2.1
      [PreChild.codeElem (some "language-python".data) "x = 1\n".data]
      (some "language-python".data) "x = 1\n".data (by decide)).2
      (by decide)).trans (by decide)

/-- Field type identifiers from the host SDK: the plugin accepts exactly the
text and URL field types; every other SDK field type is collapsed into
`otherType` with its numeric tag. -/
inductive FieldType where
  | text
  | url
  | otherType (tag : Nat)
deriving DecidableEq

/-- The current selection returned by the host: each identifier may be
null/undefined (`none`) or a string; both `none` and the empty string are
falsy in the source's guard. -/
structure Selection where
  tableId : Option JSStr
  fieldId : Option JSStr
  recordId : Option JSStr

/-- JavaScript truthiness of a nullable string. -/
def jsTruthy : Option JSStr → Bool
  | none => false
  | some s => !s.isEmpty

/-- The value of a text cell as returned by the host SDK: an array of text
segments, a bare string, null, or some other shape. -/
inductive TextCellValue where
  | nullValue
  | segments (items : List JSStr)
  | strValue (s : JSStr)
  | otherShape
deriving DecidableEq

/-- The value of a URL cell as returned by the host SDK. -/
inductive UrlCellValue where
  | nullValue
  | objValue (textPart : Option JSStr) (linkPart : Option JSStr)
  | strValue (s : JSStr)
  | otherShape
deriving DecidableEq

/-- JavaScript `a || b` on a nullable string and a string default. -/
def jsOrElse (o : Option JSStr) (d : JSStr) : JSStr :=
  match o with
  | some s => if s.isEmpty then d else s
  | none => d

/-- Content extraction for a text cell (`src/App.tsx`): join the segment
texts, or use a bare string, or fall back to the empty string. -/
def textContent : TextCellValue → JSStr
  | TextCellValue.segments items => items.flatten
  | TextCellValue.strValue s => s
  | _ => []

/-- Content extraction for a URL cell (`src/App.tsx`): prefer the display
text, fall back to the link, then to the empty string; a bare string is used
as-is. -/
def urlContent : UrlCellValue → JSStr
  | UrlCellValue.objValue t l => jsOrElse t (jsOrElse l [])
  | UrlCellValue.strValue s => s
  | _ => []

/-- The host environment consumed by one `fetchCellContent` flow: the
selection, the table and field metadata, and the cell values the host would
return. Host calls are modelled as total lookups in this environment. -/
structure HostEnv where
  selection : Selection
  tableName : JSStr
  fieldName : JSStr
  fieldType : FieldType
  textValue : TextCellValue
  urlValue : UrlCellValue

/-- The selected-cell snapshot assembled by `fetchCellContent`. -/
structure CellInfo where
  tableId : JSStr
  tableName : JSStr
  fieldId : JSStr
  fieldName : JSStr
  recordId : JSStr
  content : JSStr
  fieldType : FieldType
deriving DecidableEq

/-- The component state left behind by one run of `fetchCellContent`,
plus a flag recording whether the flow read the cell value from the host. -/
structure FetchResult where
  loading : Bool
  error : Option JSStr
  cellInfo : Option CellInfo
  readCellValue : Bool
deriving DecidableEq

/-- The error message shown for unsupported field types. -/
def UNSUPPORTED_FIELD_MESSAGE : JSStr := "请选择文本或 URL 类型的单元格".data

/-- `fetchCellContent` of `src/App.tsx`: an incomplete selection clears the
snapshot; a field type other than text or URL sets the unsupported-field
error, clears the snapshot and returns before any value read; otherwise the
cell value is read and the snapshot is assembled. -/
def fetchCellContent (env : HostEnv) : FetchResult :=
  if !(jsTruthy env.selection.tableId) || !(jsTruthy env.selection.fieldId) ||
      !(jsTruthy env.selection.recordId) then
    { loading := false, error := none, cellInfo := none, readCellValue := false }
  else if env.fieldType ≠ FieldType.text ∧ env.fieldType ≠ FieldType.url then
    { loading := false, error := some UNSUPPORTED_FIELD_MESSAGE,
      cellInfo := none, readCellValue := false }
  else
    let content :=
      if env.fieldType = FieldType.text then textContent env.textValue
      else if env.fieldType = FieldType.url then urlContent env.urlValue
      else []
    { loading := false, error := none,
      cellInfo := some
        { tableId := (env.selection.tableId).getD []
          tableName := env.tableName
          fieldId := (env.selection.fieldId).getD []
          fieldName := env.fieldName
          recordId := (env.selection.recordId).getD []
          content := content
          fieldType := env.fieldType },
      readCellValue := true }

/-- Claim C5: with a complete selection whose field type is neither text nor
URL, the fetch flow deterministically sets the unsupported-field-type error,
clears the current snapshot, ends loading, and never reads the cell
value. -/
theorem claim_C5_unsupported_field_type (env : HostEnv)
    (h1 : jsTruthy env.selection.tableId = true)
    (h2 : jsTruthy env.selection.fieldId = true)
    (h3 : jsTruthy env.selection.recordId = true)
    (ht : env.fieldType ≠ FieldType.text)
    (hu : env.fieldType ≠ FieldType.url) :
    fetchCellContent env =
      { loading := false, error := some UNSUPPORTED_FIELD_MESSAGE,
        cellInfo := none, readCellValue := false } := by
  simp [fetchCellContent, h1, h2, h3, ht, hu]

/-- Claim C5 witness: a complete selection on a field of some other type
(numeric tag 2) yields exactly the unsupported-field error state. -/
theorem claim_C5_witness :
    fetchCellContent
      { selection :=
          { tableId := some "tbl".data, fieldId := some "fld".data,
            recordId := some "rec".data }
        tableName := "T".data
        fieldName := "F".data
        fieldType := FieldType.otherType 2
        textValue := TextCellValue.nullValue
        urlValue := UrlCellValue.nullValue } =
      { loading := false, error := some UNSUPPORTED_FIELD_MESSAGE,
        cellInfo := none, readCellValue := false } :=
  claim_C5_unsupported_field_type _ (by decide) (by decide) (by decide)
    (by decide) (by decide)

/-- Availability of the primary clipboard API (`navigator.clipboard` with a
`writeText` function): absent, or present with a given write outcome
(`true` = the write resolves, `false` = it rejects). -/
inductive ClipboardAPI where
  | unavailable
  | available (writeResolves : Bool)
deriving DecidableEq

/-- Outcome of the legacy fallback: `document.execCommand` returns a
boolean, or something in the synthetic-textarea path throws. -/
inductive ExecCopyOutcome where
  | returns (b : Bool)
  | throwsError
deriving DecidableEq

/-- The browser environment consumed by one `copyToClipboard` call. -/
structure ClipEnv where
  api : ClipboardAPI
  execCopy : ExecCopyOutcome
deriving DecidableEq

/-- The fallback branch of `copyToClipboard`: the whole synthetic-textarea
path sits in a try/catch whose catch clause returns `false`, so a thrown
error still yields `Except.ok false`. -/
def copyFallback (env : ClipEnv) : Except Unit Bool :=
  match env.execCopy with
  | ExecCopyOutcome.returns b => Except.ok b
  | ExecCopyOutcome.throwsError => Except.ok false

/-- `copyToClipboard` of `src/App.tsx`. The result type `Except Unit Bool`
makes an uncaught exception representable as `Except.error`; the source
catches the primary write's rejection (falling through to the fallback) and
wraps the fallback in its own try/catch, so every path yields
`Except.ok`. -/
def copyToClipboard (env : ClipEnv) (_text : JSStr) : Except Unit Bool :=
  match env.api with
  | ClipboardAPI.available true => Except.ok true
  | ClipboardAPI.available false => copyFallback env
  | ClipboardAPI.unavailable => copyFallback env

/-- The success value reported by the legacy copy command: its returned
boolean, or `false` when the fallback itself throws. -/
def legacyCopyResult : ExecCopyOutcome → Bool
  | ExecCopyOutcome.returns b => b
  | ExecCopyOutcome.throwsError => false

/-- Claim C6: `copyToClipboard` never raises to its caller (every run
resolves to a boolean), and whenever the primary clipboard API is
unavailable or its write rejects, the result equals the legacy copy
command's reported success value. -/
theorem claim_C6_copy_never_raises (env : ClipEnv) (text : JSStr) :
    (∃ b : Bool, copyToClipboard env text = Except.ok b) ∧
    ((env.api = ClipboardAPI.unavailable ∨
        env.api = ClipboardAPI.available false) →
      copyToClipboard env text = Except.ok (legacyCopyResult env.execCopy)) := by
  obtain ⟨api, ec⟩ := env
  constructor
  · cases api with
    | unavailable => cases ec <;> exact ⟨_, rfl⟩
    | available r => cases r <;> cases ec <;> exact ⟨_, rfl⟩
  · intro h
    cases api with
    | unavailable => cases ec <;> rfl
    | available r =>
      cases r with
      | true => rcases h with h | h <;> simp at h
      | false => cases ec <;> rfl

/-- Claim C6 witness: with the primary API absent the result is the legacy
command's boolean, and with a rejecting primary write plus a throwing
fallback the result is `false` — never an exception. -/
theorem claim_C6_witness :
    copyToClipboard
      { api := ClipboardAPI.unavailable,
        execCopy := ExecCopyOutcome.returns true } "abc".data =
      Except.ok true ∧
    copyToClipboard
      { api := ClipboardAPI.available false,
        execCopy := ExecCopyOutcome.throwsError } "abc".data =
      Except.ok false := by
  constructor
  · exact (claim_C6_copy_never_raises
      { api := ClipboardAPI.unavailable,
        execCopy := ExecCopyOutcome.returns true } "abc".data).2 (Or.inl rfl)
  · exact (claim_C6_copy_never_raises
      { api := ClipboardAPI.available false,
        execCopy := ExecCopyOutcome.throwsError } "abc".data).2 (Or.inr rfl)

/-- Local device storage, modelled as a partial map from keys to stored
strings. -/
def LocalStorage := JSStr → Option JSStr

/-- The fixed storage key for the font-size preference. -/
def FONT_SIZE_STORAGE_KEY : JSStr := "markdown-preview-font-size".data

/-- The four font-size buckets of `src/App.tsx`. -/
inductive FontSize where
  | small
  | medium
  | large
  | xlarge
deriving DecidableEq

/-- The bucket identifier stored for each bucket (the literal string of the
TypeScript union member). -/
def fontSizeId : FontSize → JSStr
  | FontSize.small => "small".data
  | FontSize.medium => "medium".data
  | FontSize.large => "large".data
  | FontSize.xlarge => "xlarge".data

/-- The pixel mapping `FONT_SIZE_MAP` of `src/App.tsx`. -/
def FONT_SIZE_MAP : FontSize → Nat
  | FontSize.small => 12
  | FontSize.medium => 14
  | FontSize.large => 16
  | FontSize.xlarge => 18

/-- The `useState` initializer for the font size in `src/App.tsx`: read the
stored value and fall back to "medium" when the key is absent or the stored
string is empty; a non-empty stored string is adopted as-is (the source
merely casts it with `saved as FontSize`, without validation). -/
def initialFontSize (store : LocalStorage) : JSStr :=
  match store FONT_SIZE_STORAGE_KEY with
  | none => "medium".data
  | some s => if s = [] then "medium".data else s

/-- The persistence effect of `src/App.tsx`: write the current font size
under the fixed key. -/
def persistFontSize (store : LocalStorage) (size : JSStr) : LocalStorage :=
  fun k => if k = FONT_SIZE_STORAGE_KEY then some size else store k

/-- Claim C7: selecting any bucket writes its identifier under the fixed
key, the initial font size computed at the next load from that storage is
the selected bucket, and an empty storage loads the "medium" default. -/
theorem claim_C7_font_size_round_trip :
    (∀ (store : LocalStorage) (b : FontSize),
      persistFontSize store (fontSizeId b) FONT_SIZE_STORAGE_KEY =
        some (fontSizeId b) ∧
      initialFontSize (persistFontSize store (fontSizeId b)) = fontSizeId b) ∧
    initialFontSize (fun _ => none) = "medium".data := by
  constructor
  · intro store b
    have hne : ¬ (fontSizeId b = []) := by cases b <;> decide
    constructor
    · simp [persistFontSize]
    · simp [initialFontSize, persistFontSize, hne]
  · rfl

/-- Claim C10: the stored font-size string is adopted without validation:
any non-empty stored value becomes the initial state even when it is not one
of the four buckets, and the "medium" default applies exactly when the key
is absent or the stored value is empty. -/
theorem claim_C10_font_size_unvalidated (store : LocalStorage) (s : JSStr) :
    (store FONT_SIZE_STORAGE_KEY = some s → s ≠ [] →
      initialFontSize store = s) ∧
    (store FONT_SIZE_STORAGE_KEY = none →
      initialFontSize store = "medium".data) ∧
    (store FONT_SIZE_STORAGE_KEY = some [] →
      initialFontSize store = "medium".data) := by
  refine ⟨fun hst hne => ?_, fun hst => ?_, fun hst => ?_⟩
  · simp [initialFontSize, hst, hne]
  · simp [initialFontSize, hst]
  · simp [initialFontSize, hst]

/-- Claim C10 witness: a stored value "huge", which is none of the four
buckets, becomes the initial font-size state. -/
theorem claim_C10_witness :
    initialFontSize
      (fun k => if k = FONT_SIZE_STORAGE_KEY then some "huge".data else none) =
      "huge".data :=
  (claim_C10_font_size_unvalidated
    (fun k => if k = FONT_SIZE_STORAGE_KEY then some "huge".data else none)
    "huge".data).1 (by simp) (by decide)

/-- Local state of the `MermaidBlock` component: the rendered SVG markup and
the error message, as held by its two `useState` hooks. -/
structure MermaidState where
  svg : JSStr
  error : Option JSStr
deriving DecidableEq

/-- Outcome of one `mermaid.render` call issued by the component's render
effect. -/
inductive RenderOutcome where
  | success (svg : JSStr)
  | failure
deriving DecidableEq

/-- The fixed error message set by the catch clause of `MermaidBlock`. -/
def MERMAID_ERROR_MESSAGE : JSStr := "图表渲染失败".data

/-- The render effect of `MermaidBlock` (`src/App.tsx`): empty code skips
the render; a successful render stores the SVG and clears the error; a
thrown render error is caught and stores the error message, leaving the
rest of the state. -/
def mermaidEffect (code : JSStr) (outcome : RenderOutcome)
    (st : MermaidState) : MermaidState :=
  if code = [] then st
  else
    match outcome with
    | RenderOutcome.success svg => { svg := svg, error := none }
    | RenderOutcome.failure => { st with error := some MERMAID_ERROR_MESSAGE }

/-- What `MermaidBlock` displays: in the error state a visible warning plus
the raw source in a `pre` element, otherwise the SVG container. -/
inductive MermaidView where
  | errorView (message : JSStr) (source : JSStr)
  | svgView (svg : JSStr)
deriving DecidableEq

/-- The render output of `MermaidBlock` from its state and current code. -/
def mermaidRenderView (st : MermaidState) (code : JSStr) : MermaidView :=
  match st.error with
  | some e => MermaidView.errorView e code
  | none => MermaidView.svgView st.svg

/-- Claim C9: a failed render is caught and displays the raw source with a
visible error indicator (never a blank panel, never a propagated
exception, which the total state transition excludes by construction), and
a subsequent successful render of new input clears the error state. -/
theorem claim_C9_mermaid_failure_handling (st : MermaidState) (code : JSStr)
    (h : code ≠ []) :
    (mermaidRenderView (mermaidEffect code RenderOutcome.failure st) code =
      MermaidView.errorView MERMAID_ERROR_MESSAGE code) ∧
    (∀ (code' svg : JSStr), code' ≠ [] →
      mermaidRenderView
        (mermaidEffect code' (RenderOutcome.success svg)
          (mermaidEffect code RenderOutcome.failure st)) code' =
        MermaidView.svgView svg) := by
  constructor
  · simp [mermaidEffect, h, mermaidRenderView]
  · intro code' svg h'
    simp [mermaidEffect, h, h', mermaidRenderView]

/-- Claim C9 witness: a failing render of a concrete diagram source shows
the warning plus that source, and a following successful render shows the
produced SVG. -/
theorem claim_C9_witness :
    mermaidRenderView
      (mermaidEffect "graph TD\nA-->".data RenderOutcome.failure
        { svg := [], error := none }) "graph TD\nA-->".data =
      MermaidView.errorView MERMAID_ERROR_MESSAGE "graph TD\nA-->".data ∧
    mermaidRenderView
      (mermaidEffect "graph TD\nA-->B".data
        (RenderOutcome.success "<svg></svg>".data)
        (mermaidEffect "graph TD\nA-->".data RenderOutcome.failure
          { svg := [], error := none })) "graph TD\nA-->B".data =
      MermaidView.svgView "<svg></svg>".data := by
  constructor
  · exact (claim_C9_mermaid_failure_handling { svg := [], error := none }
      "graph TD\nA-->".data (by decide)).1
  · exact (claim_C9_mermaid_failure_handling { svg := [], error := none }
      "graph TD\nA-->".data (by decide)).2 "graph TD\nA-->B".data
      "<svg></svg>".data (by decide)

/-- UTF-8 encoding of one Unicode scalar value (the encoding used by
`new Blob` for string parts). -/
def utf8EncodeScalar (n : Nat) : List Nat :=
  if n < 0x80 then [n]
  else if n < 0x800 then [0xC0 + n / 64, 0x80 + n % 64]
  else if n < 0x10000 then
    [0xE0 + n / 4096, 0x80 + (n / 64) % 64, 0x80 + n % 64]
  else
    [0xF0 + n / 0x40000, 0x80 + (n / 4096) % 64, 0x80 + (n / 64) % 64,
      0x80 + n % 64]

/-- The byte content of the exported blob: the UTF-8 encoding of the cell
content. -/
def utf8Encode (s : JSStr) : List Nat :=
  (s.map (fun c => utf8EncodeScalar c.toNat)).flatten

/-- Reading the exported file back: decode a UTF-8 byte sequence into the
sequence of Unicode scalar values, failing on a malformed sequence. The
decoder is a byte-at-a-time automaton: the state is `none` when a lead byte
is expected, and `some (need, acc)` when `need` continuation bytes are still
expected for a scalar accumulated so far in `acc`. -/
def utf8DecodeAux : Option (Nat × Nat) → List Nat → Option (List Nat)
  | none, [] => some []
  | some _, [] => none
  | none, b :: bs =>
    if b < 0x80 then (utf8DecodeAux none bs).map (fun r => b :: r)
    else if b < 0xC0 then none
    else if b < 0xE0 then utf8DecodeAux (some (1, b - 0xC0)) bs
    else if b < 0xF0 then utf8DecodeAux (some (2, b - 0xE0)) bs
    else if b < 0xF8 then utf8DecodeAux (some (3, b - 0xF0)) bs
    else none
  | some (need, acc), b :: bs =>
    if 0x80 ≤ b ∧ b < 0xC0 then
      if need = 1 then
        (utf8DecodeAux none bs).map (fun r => (acc * 64 + (b - 0x80)) :: r)
      else utf8DecodeAux (some (need - 1, acc * 64 + (b - 0x80))) bs
    else none

/-- Decoding of a full byte stream, starting in the lead-byte state. -/
def utf8Decode (l : List Nat) : Option (List Nat) := utf8DecodeAux none l

/-- Automaton step: an ASCII byte emits itself. -/
theorem utf8DecodeAux_ascii (b : Nat) (bs : List Nat) (h : b < 0x80) :
    utf8DecodeAux none (b :: bs) =
      (utf8DecodeAux none bs).map (fun r => b :: r) := by
  conv_lhs => unfold utf8DecodeAux
  rw [if_pos h]

/-- Automaton step: a two-byte lead byte starts a continuation. -/
theorem utf8DecodeAux_lead2 (b : Nat) (bs : List Nat) (h0 : ¬ b < 0x80)
    (h1 : ¬ b < 0xC0) (h2 : b < 0xE0) :
    utf8DecodeAux none (b :: bs) = utf8DecodeAux (some (1, b - 0xC0)) bs := by
  conv_lhs => unfold utf8DecodeAux
  rw [if_neg h0, if_neg h1, if_pos h2]

/-- Automaton step: a three-byte lead byte starts a continuation. -/
theorem utf8DecodeAux_lead3 (b : Nat) (bs : List Nat) (h0 : ¬ b < 0x80)
    (h1 : ¬ b < 0xC0) (h2 : ¬ b < 0xE0) (h3 : b < 0xF0) :
    utf8DecodeAux none (b :: bs) = utf8DecodeAux (some (2, b - 0xE0)) bs := by
  conv_lhs => unfold utf8DecodeAux
  rw [if_neg h0, if_neg h1, if_neg h2, if_pos h3]

/-- Automaton step: a four-byte lead byte starts a continuation. -/
theorem utf8DecodeAux_lead4 (b : Nat) (bs : List Nat) (h0 : ¬ b < 0x80)
    (h1 : ¬ b < 0xC0) (h2 : ¬ b < 0xE0) (h3 : ¬ b < 0xF0) (h4 : b < 0xF8) :
    utf8DecodeAux none (b :: bs) = utf8DecodeAux (some (3, b - 0xF0)) bs := by
  conv_lhs => unfold utf8DecodeAux
  rw [if_neg h0, if_neg h1, if_neg h2, if_neg h3, if_pos h4]

/-- Automaton step: the last continuation byte emits the scalar. -/
theorem utf8DecodeAux_cont_last (acc b : Nat) (bs : List Nat)
    (h : 0x80 ≤ b ∧ b < 0xC0) :
    utf8DecodeAux (some (1, acc)) (b :: bs) =
      (utf8DecodeAux none bs).map (fun r => (acc * 64 + (b - 0x80)) :: r) := by
  conv_lhs => unfold utf8DecodeAux
  rw [if_pos h, if_pos rfl]

/-- Automaton step: a non-final continuation byte shifts the accumulator
 (stated for the concrete remaining counts 2 and 3 used by the encoder). -/
theorem utf8DecodeAux_cont_more (need acc b : Nat) (bs : List Nat)
    (h : 0x80 ≤ b ∧ b < 0xC0) (hneed : need ≠ 1) :
    utf8DecodeAux (some (need, acc)) (b :: bs) =
      utf8DecodeAux (some (need - 1, acc * 64 + (b - 0x80))) bs := by
  conv_lhs => unfold utf8DecodeAux
  rw [if_pos h, if_neg hneed]

/-- Decoding one encoded scalar at the head of a byte stream peels off
exactly that scalar. -/
theorem utf8Decode_encodeScalar_cons (c : Char) (bs : List Nat) :
    utf8Decode (utf8EncodeScalar c.toNat ++ bs) =
      (utf8Decode bs).map (fun r => c.toNat :: r) := by
  have hvalid : c.toNat < 0x110000 := by
    rcases c.valid with h | ⟨_, h⟩
    · exact Nat.lt_trans h (by decide)
    · exact h
  show utf8DecodeAux none (utf8EncodeScalar c.toNat ++ bs) =
    (utf8DecodeAux none bs).map (fun r => c.toNat :: r)
  by_cases h1 : c.toNat < 0x80
  · rw [utf8EncodeScalar, if_pos h1]
    simp only [List.cons_append, List.nil_append]
    exact utf8DecodeAux_ascii c.toNat bs h1
  · by_cases h2 : c.toNat < 0x800
    · rw [utf8EncodeScalar, if_neg h1, if_pos h2]
      simp only [List.cons_append, List.nil_append]
      rw [utf8DecodeAux_lead2 (0xC0 + c.toNat / 64) _ (by omega) (by omega)
        (by omega)]
      rw [utf8DecodeAux_cont_last (0xC0 + c.toNat / 64 - 0xC0)
        (0x80 + c.toNat % 64) bs (by omega)]
      have hv : (0xC0 + c.toNat / 64 - 0xC0) * 64 +
          (0x80 + c.toNat % 64 - 0x80) = c.toNat := by omega
      simp only [hv]
    · by_cases h3 : c.toNat < 0x10000
      · rw [utf8EncodeScalar, if_neg h1, if_neg h2, if_pos h3]
        simp only [List.cons_append, List.nil_append]
        rw [utf8DecodeAux_lead3 (0xE0 + c.toNat / 4096) _ (by omega) (by omega)
          (by omega) (by omega)]
        rw [utf8DecodeAux_cont_more 2 (0xE0 + c.toNat / 4096 - 0xE0)
          (0x80 + c.toNat / 64 % 64) _ (by omega) (by omega)]
        rw [utf8DecodeAux_cont_last
          ((0xE0 + c.toNat / 4096 - 0xE0) * 64 + (0x80 + c.toNat / 64 % 64 - 0x80))
          (0x80 + c.toNat % 64) bs (by omega)]
        have hv : ((0xE0 + c.toNat / 4096 - 0xE0) * 64 +
            (0x80 + c.toNat / 64 % 64 - 0x80)) * 64 +
            (0x80 + c.toNat % 64 - 0x80) = c.toNat := by omega
        simp only [hv]
      · rw [utf8EncodeScalar, if_neg h1, if_neg h2, if_neg h3]
        simp only [List.cons_append, List.nil_append]
        rw [utf8DecodeAux_lead4 (0xF0 + c.toNat / 0x40000) _ (by omega)
          (by omega) (by omega) (by omega) (by omega)]
        rw [utf8DecodeAux_cont_more 3 (0xF0 + c.toNat / 0x40000 - 0xF0)
          (0x80 + c.toNat / 4096 % 64) _ (by omega) (by omega)]
        rw [utf8DecodeAux_cont_more 2
          ((0xF0 + c.toNat / 0x40000 - 0xF0) * 64 + (0x80 + c.toNat / 4096 % 64 - 0x80))
          (0x80 + c.toNat / 64 % 64) _ (by omega) (by omega)]
        rw [utf8DecodeAux_cont_last
          (((0xF0 + c.toNat / 0x40000 - 0xF0) * 64 + (0x80 + c.toNat / 4096 % 64 - 0x80)) * 64 +
            (0x80 + c.toNat / 64 % 64 - 0x80))
          (0x80 + c.toNat % 64) bs (by omega)]
        have hv : ((((0xF0 + c.toNat / 0x40000 - 0xF0) * 64 +
            (0x80 + c.toNat / 4096 % 64 - 0x80)) * 64 +
            (0x80 + c.toNat / 64 % 64 - 0x80)) * 64 +
            (0x80 + c.toNat % 64 - 0x80)) = c.toNat := by omega
        simp only [hv]

/-- Decoding the UTF-8 encoding of any string recovers exactly its scalar
values. -/
theorem utf8Decode_utf8Encode (s : JSStr) :
    utf8Decode (utf8Encode s) = some (s.map Char.toNat) := by
  induction s with
  | nil => rfl
  | cons c cs ih =>
    have hstep : utf8Encode (c :: cs) =
        utf8EncodeScalar c.toNat ++ utf8Encode cs := by
      simp [utf8Encode]
    rw [hstep, utf8Decode_encodeScalar_cons, ih]
    rfl

/-- A browser-style file download triggered by the export action. -/
structure Download where
  bytes : List Nat
  mime : JSStr
  filename : JSStr
deriving DecidableEq

/-- The fixed MIME type of the Markdown export. -/
def MARKDOWN_MIME : JSStr := "text/markdown;charset=utf-8".data

/-- `downloadAsMarkdown` of `src/App.tsx`: with no snapshot or empty content
the action returns without downloading; otherwise it downloads a blob whose
bytes are the UTF-8 encoding of the content, typed `text/markdown;charset=utf-8`,
named from the field name (or "markdown") and the ISO date. The current ISO
date, ambient in the source (`new Date().toISOString().slice(0, 10)`), is an
explicit parameter here. -/
def downloadAsMarkdown (info : Option CellInfo) (isoDate : JSStr) :
    Option Download :=
  match info with
  | none => none
  | some ci =>
    if ci.content = [] then none
    else some
      { bytes := utf8Encode ci.content
        mime := MARKDOWN_MIME
        filename := jsOrElse (some ci.fieldName) "markdown".data ++
          "_".data ++ isoDate ++ ".md".data }

/-- Claim C8: for a snapshot with non-empty content the Markdown export
produces a blob whose bytes are exactly the UTF-8 encoding of the content
(decoding them recovers the content's scalar values byte-identically), with
MIME type text/markdown;charset=utf-8 and the field-name/ISO-date .md
filename pattern. -/
theorem claim_C8_markdown_export (ci : CellInfo) (isoDate : JSStr)
    (h : ci.content ≠ []) :
    downloadAsMarkdown (some ci) isoDate = some
      { bytes := utf8Encode ci.content
        mime := MARKDOWN_MIME
        filename := jsOrElse (some ci.fieldName) "markdown".data ++
          "_".data ++ isoDate ++ ".md".data } ∧
    utf8Decode (utf8Encode ci.content) = some (ci.content.map Char.toNat) := by
  constructor
  · simp [downloadAsMarkdown, h]
  · exact utf8Decode_utf8Encode ci.content

/-- Claim C8 witness: exporting the concrete content "# Title" from field
"notes" on 2026-10-12 yields the expected blob, and decoding its bytes
recovers the content. -/
theorem claim_C8_witness :
    downloadAsMarkdown
      (some
        { tableId := "t".data, tableName := "T".data, fieldId := "f".data,
          fieldName := "notes".data, recordId := "r".data,
          content := "# Title".data, fieldType := FieldType.text })
      "2026-10-12".data = some
      { bytes := utf8Encode "# Title".data
        mime := MARKDOWN_MIME
        filename := "notes_2026-10-12.md".data } ∧
    utf8Decode (utf8Encode "# Title".data) =
      some ("# Title".data.map Char.toNat) := by
  have h := claim_C8_markdown_export
    { tableId := "t".data, tableName := "T".data, fieldId := "f".data,
      fieldName := "notes".data, recordId := "r".data,
      content := "# Title".data, fieldType := FieldType.text }
    "2026-10-12".data (by decide)
  exact ⟨h.1.trans (by decide), h.2⟩
